import Mathlib

/-!
Shallow embedding of the computation core of a jewellery-shop retail
application: invoice line-item pricing and discount resolution
(InvoicePreview), line-item validation (BillingForm), party creation
(App.handleAddParty), billing-session clear (App.handleClearInvoice),
ledger aggregation (Khatabook / Reports), interest accrual (Byajbook
LoanDetails) and the Byajbook navigation state machine.  Numbers are
modelled as rationals; a `parseFloat` result is `Option ℚ` with `none`
standing for NaN; JS epoch-millisecond timestamps are rationals.
-/

inductive MetalType
  | GOLD
  | SILVER
deriving DecidableEq, Repr

inductive MakingChargeType
  | PER_GRAM
  | FLAT
deriving DecidableEq, Repr

structure InvoiceItem where
  id : String
  description : String
  metal : MetalType
  grossWeight : ℚ
  netWeight : ℚ
  makingChargeType : MakingChargeType
  makingChargeValue : ℚ
  applyGst : Bool
deriving DecidableEq, Repr

/-- The rate table: price per gram for each metal (source interface Rates). -/
def Rates : Type := MetalType → ℚ

/-- Per-item derived values computed by InvoicePreview's calculations map. -/
structure ItemCalc where
  rate : ℚ
  metalValue : ℚ
  makingCharges : ℚ
  valueBeforeGst : ℚ
  itemGstAmount : ℚ
  totalValue : ℚ
deriving DecidableEq, Repr

/-- One element of InvoicePreview's calculations array (SettingsModal.tsx
lines 138-148). -/
def calcItem (rates : Rates) (gstRate : ℚ) (item : InvoiceItem) : ItemCalc :=
  let rate := rates item.metal
  let metalValue := item.netWeight * rate
  let makingCharges :=
    match item.makingChargeType with
    | .PER_GRAM => item.makingChargeValue * item.grossWeight
    | .FLAT => item.makingChargeValue
  let valueBeforeGst := metalValue + makingCharges
  let itemGstAmount := if item.applyGst then valueBeforeGst * (gstRate / 100) else 0
  let totalValue := valueBeforeGst + itemGstAmount
  ⟨rate, metalValue, makingCharges, valueBeforeGst, itemGstAmount, totalValue⟩

/-- `calculations.reduce((acc, item) => acc + item.valueBeforeGst, 0)`. -/
def subTotal (rates : Rates) (gstRate : ℚ) (items : List InvoiceItem) : ℚ :=
  (items.map (calcItem rates gstRate)).foldl (fun acc c => acc + c.valueBeforeGst) 0

/-- `calculations.reduce((acc, item) => acc + item.itemGstAmount, 0)`. -/
def gstAmount (rates : Rates) (gstRate : ℚ) (items : List InvoiceItem) : ℚ :=
  (items.map (calcItem rates gstRate)).foldl (fun acc c => acc + c.itemGstAmount) 0

def totalBeforeDiscount (rates : Rates) (gstRate : ℚ) (items : List InvoiceItem) : ℚ :=
  subTotal rates gstRate items + gstAmount rates gstRate items

inductive DiscountType
  | PERCENT
  | FIXED
deriving DecidableEq, Repr

/-- `parseFloat(discountValue) || 0`: a non-numeric (NaN) input counts as 0. -/
def numericDiscountValue (raw : Option ℚ) : ℚ := raw.getD 0

/-- Discount resolution of InvoicePreview (SettingsModal.tsx lines 154-167):
starts at 0, applies the mode formula only when the numeric value is
positive, then caps at the pre-discount total. -/
def discountAmount (dt : DiscountType) (v : ℚ) (tbd : ℚ) : ℚ :=
  let d : ℚ :=
    if 0 < v then
      match dt with
      | .PERCENT => tbd * (v / 100)
      | .FIXED => v
    else 0
  if tbd < d then tbd else d

def grandTotal (dt : DiscountType) (v : ℚ) (tbd : ℚ) : ℚ :=
  tbd - discountAmount dt v tbd

/-- The discount formula exactly as the spec words it, before clamping. -/
def specDiscountFormula (dt : DiscountType) (v : ℚ) (tbd : ℚ) : ℚ :=
  match dt with
  | .PERCENT => tbd * (v / 100)
  | .FIXED => v

/-- Validity constraints of the data model for one line item. -/
def ValidItem (it : InvoiceItem) : Prop :=
  0 < it.grossWeight ∧ 0 < it.netWeight ∧ it.netWeight ≤ it.grossWeight ∧
    0 ≤ it.makingChargeValue

/-- Folding addition of a projection equals the list sum of that projection. -/
theorem lem_foldl_add_map {α : Type} (f : α → ℚ) (l : List α) (a : ℚ) :
    l.foldl (fun acc x => acc + f x) a = a + (l.map f).sum := by
  induction l generalizing a with
  | nil => simp
  | cons x xs ih => simp [ih, add_assoc]

theorem lem_valueBeforeGst_nonneg (rates : Rates) (gstRate : ℚ)
    (hr : ∀ m, 0 < rates m) (it : InvoiceItem) (hit : ValidItem it) :
    0 ≤ (calcItem rates gstRate it).valueBeforeGst := by
  obtain ⟨hgw, hnw, _, hmcv⟩ := hit
  have hrate := (hr it.metal).le
  simp only [calcItem]
  cases h : it.makingChargeType <;>
    simp only [h] <;>
    positivity

theorem lem_itemGst_nonneg (rates : Rates) (gstRate : ℚ)
    (hr : ∀ m, 0 < rates m) (hg : 0 ≤ gstRate) (it : InvoiceItem)
    (hit : ValidItem it) :
    0 ≤ (calcItem rates gstRate it).itemGstAmount := by
  have hv := lem_valueBeforeGst_nonneg rates gstRate hr it hit
  simp only [calcItem] at hv ⊢
  split
  · exact mul_nonneg hv (by positivity)
  · exact le_refl 0

theorem lem_totalBeforeDiscount_nonneg (rates : Rates) (gstRate : ℚ)
    (items : List InvoiceItem) (hr : ∀ m, 0 < rates m) (hg : 0 ≤ gstRate)
    (hitems : ∀ it ∈ items, ValidItem it) :
    0 ≤ totalBeforeDiscount rates gstRate items := by
  have h1 : 0 ≤ subTotal rates gstRate items := by
    rw [subTotal, lem_foldl_add_map, zero_add]
    apply List.sum_nonneg
    intro x hx
    simp only [List.mem_map, List.mem_map] at hx
    obtain ⟨c, hc, rfl⟩ := hx
    obtain ⟨it, hit, rfl⟩ := hc
    exact lem_valueBeforeGst_nonneg rates gstRate hr it (hitems it hit)
  have h2 : 0 ≤ gstAmount rates gstRate items := by
    rw [gstAmount, lem_foldl_add_map, zero_add]
    apply List.sum_nonneg
    intro x hx
    simp only [List.mem_map, List.mem_map] at hx
    obtain ⟨c, hc, rfl⟩ := hx
    obtain ⟨it, hit, rfl⟩ := hc
    exact lem_itemGst_nonneg rates gstRate hr hg it (hitems it hit)
  have := add_nonneg h1 h2
  exact this

/-- C1: each line item's derived values satisfy the spec formulas
(metal value, making charge by mode, taxable amount, tax amount, line
total), and at invoice level the subtotal, total tax and pre-discount
total are the corresponding sums over all items. -/
theorem C1_invoice_arithmetic (rates : Rates) (gstRate : ℚ)
    (item : InvoiceItem) (items : List InvoiceItem) :
    (calcItem rates gstRate item).metalValue = item.netWeight * rates item.metal
    ∧ (calcItem rates gstRate item).makingCharges =
        (if item.makingChargeType = .PER_GRAM then
          item.makingChargeValue * item.grossWeight
        else item.makingChargeValue)
    ∧ (calcItem rates gstRate item).valueBeforeGst =
        item.netWeight * rates item.metal +
          (if item.makingChargeType = .PER_GRAM then
            item.makingChargeValue * item.grossWeight
          else item.makingChargeValue)
    ∧ (calcItem rates gstRate item).itemGstAmount =
        (if item.applyGst then
          (calcItem rates gstRate item).valueBeforeGst * (gstRate / 100)
        else 0)
    ∧ (calcItem rates gstRate item).totalValue =
        (calcItem rates gstRate item).valueBeforeGst +
          (calcItem rates gstRate item).itemGstAmount
    ∧ subTotal rates gstRate items =
        (items.map (fun it => (calcItem rates gstRate it).valueBeforeGst)).sum
    ∧ gstAmount rates gstRate items =
        (items.map (fun it => (calcItem rates gstRate it).itemGstAmount)).sum
    ∧ totalBeforeDiscount rates gstRate items =
        subTotal rates gstRate items + gstAmount rates gstRate items := by
  refine ⟨rfl, ?_, ?_, rfl, rfl, ?_, ?_, rfl⟩
  · cases h : item.makingChargeType <;> simp [calcItem, h]
  · cases h : item.makingChargeType <;> simp [calcItem, h]
  · rw [subTotal, lem_foldl_add_map, zero_add, List.map_map]
    rfl
  · rw [gstAmount, lem_foldl_add_map, zero_add, List.map_map]
    rfl

theorem lem_discount_clamp (dt : DiscountType) (v tbd : ℚ) (h : 0 ≤ tbd) :
    discountAmount dt v tbd =
      min (max (specDiscountFormula dt v tbd) 0) tbd := by
  have key : ∀ raw : ℚ, (if tbd < raw then tbd else raw) = min raw tbd := by
    intro raw
    rcases le_or_lt tbd raw with hc | hc
    · rw [min_eq_right hc]
      rcases eq_or_lt_of_le hc with hceq | hclt
      · rw [← hceq, if_neg (lt_irrefl tbd)]
      · rw [if_pos hclt]
    · rw [min_eq_left hc.le, if_neg (not_lt.mpr hc.le)]
  rcases le_or_lt v 0 with hv | hv
  · have hnv : ¬ 0 < v := not_lt.mpr hv
    have hraw : specDiscountFormula dt v tbd ≤ 0 := by
      cases dt
      · simp only [specDiscountFormula]
        exact mul_nonpos_iff.mpr (Or.inl ⟨h, by linarith⟩)
      · simpa [specDiscountFormula] using hv
    rw [max_eq_right hraw, min_eq_left h]
    simp only [discountAmount, if_neg hnv]
    rw [if_neg (not_lt.mpr h)]
  · have hraw0 : 0 ≤ specDiscountFormula dt v tbd := by
      cases dt
      · simp only [specDiscountFormula]
        exact mul_nonneg h (by positivity)
      · simpa [specDiscountFormula] using hv.le
    rw [max_eq_left hraw0]
    cases dt
    · simp only [discountAmount, specDiscountFormula, if_pos hv]
      exact key _
    · simp only [discountAmount, specDiscountFormula, if_pos hv]
      exact key _

theorem lem_grand_bounds (dt : DiscountType) (v tbd : ℚ) (h : 0 ≤ tbd) :
    0 ≤ grandTotal dt v tbd ∧ grandTotal dt v tbd ≤ tbd := by
  rw [grandTotal, lem_discount_clamp dt v tbd h]
  constructor
  · have : min (max (specDiscountFormula dt v tbd) 0) tbd ≤ tbd := min_le_right _ _
    linarith
  · have : 0 ≤ min (max (specDiscountFormula dt v tbd) 0) tbd :=
      le_min (le_max_right _ _) h
    linarith

/-- C2: for a valid item set, positive rate table, non-negative tax rate and
any discount mode and value, the resolved discount equals the mode formula
clamped to the interval from 0 to the pre-discount total, the grand total is
the pre-discount total minus the discount, and the grand total lies between 0
and the pre-discount total (determinism is immediate since the computation is
a pure function of its inputs). -/
theorem C2_grand_total (rates : Rates) (gstRate : ℚ) (items : List InvoiceItem)
    (dt : DiscountType) (v : ℚ) (hr : ∀ m, 0 < rates m) (hg : 0 ≤ gstRate)
    (hitems : ∀ it ∈ items, ValidItem it) :
    discountAmount dt v (totalBeforeDiscount rates gstRate items) =
      min (max (specDiscountFormula dt v (totalBeforeDiscount rates gstRate items)) 0)
        (totalBeforeDiscount rates gstRate items)
    ∧ grandTotal dt v (totalBeforeDiscount rates gstRate items) =
        totalBeforeDiscount rates gstRate items -
          discountAmount dt v (totalBeforeDiscount rates gstRate items)
    ∧ 0 ≤ grandTotal dt v (totalBeforeDiscount rates gstRate items)
    ∧ grandTotal dt v (totalBeforeDiscount rates gstRate items) ≤
        totalBeforeDiscount rates gstRate items := by
  have htbd := lem_totalBeforeDiscount_nonneg rates gstRate items hr hg hitems
  obtain ⟨h1, h2⟩ := lem_grand_bounds dt v _ htbd
  exact ⟨lem_discount_clamp dt v _ htbd, rfl, h1, h2⟩

/-- Concrete rate table used to instantiate the billing theorems. -/
def testRates : Rates := fun m =>
  match m with
  | .GOLD => 5000
  | .SILVER => 60

/-- Concrete valid line item used to instantiate the billing theorems. -/
def testItem : InvoiceItem :=
  ⟨"i1", "Gold Ring", .GOLD, 2, 1, .FLAT, 100, true⟩

theorem C2_grand_total_witness :
    0 ≤ grandTotal .PERCENT 10 (totalBeforeDiscount testRates 3 [testItem]) ∧
      grandTotal .PERCENT 10 (totalBeforeDiscount testRates 3 [testItem]) ≤
        totalBeforeDiscount testRates 3 [testItem] := by
  have h := C2_grand_total testRates 3 [testItem] .PERCENT 10
    (fun m => by cases m <;> norm_num [testRates])
    (by norm_num)
    (fun it hit => by
      simp only [List.mem_singleton] at hit
      subst hit
      exact ⟨by norm_num [testItem], by norm_num [testItem],
        by norm_num [testItem], by norm_num [testItem]⟩)
  exact ⟨h.2.2.1, h.2.2.2⟩

/-- Concrete item exhibiting the percent-mode gap in the clamping claim. -/
def cexItem : InvoiceItem :=
  ⟨"c1", "Silver Chain", .GOLD, 1, 1, .FLAT, 0, false⟩

/-- Flat 50-per-gram rate table for the clamping counterexample. -/
def cexRates : Rates := fun _ => 50

/-- C3 counterexample: with one item totalling 50 and a PERCENT discount of
value 50 (which is ≥ the pre-discount total), the grand total is 25, not 0 —
the claim's clamp-to-zero property fails in PERCENT mode. -/
theorem C3_counterexample :
    totalBeforeDiscount cexRates 0 [cexItem] ≤ (50 : ℚ) ∧
      grandTotal .PERCENT 50 (totalBeforeDiscount cexRates 0 [cexItem]) ≠ 0 := by
  constructor
  · norm_num [totalBeforeDiscount, subTotal, gstAmount, calcItem, cexRates, cexItem]
  · norm_num [totalBeforeDiscount, subTotal, gstAmount, calcItem, cexRates,
      cexItem, grandTotal, discountAmount]

/-- C3 (amended): for a valid item set and tax rate, a FIXED-mode discount
whose value is at least the pre-discount total yields a grand total of
exactly 0, and in either mode the grand total is never negative.  (In PERCENT
mode the source treats the value as a percentage, so value ≥ total does not
force a zero grand total.) -/
theorem C3_fixed_discount_clamps_to_zero (rates : Rates) (gstRate : ℚ)
    (items : List InvoiceItem) (v : ℚ) (hr : ∀ m, 0 < rates m)
    (hg : 0 ≤ gstRate) (hitems : ∀ it ∈ items, ValidItem it)
    (hv : totalBeforeDiscount rates gstRate items ≤ v) :
    grandTotal .FIXED v (totalBeforeDiscount rates gstRate items) = 0
    ∧ ∀ dt, 0 ≤ grandTotal dt v (totalBeforeDiscount rates gstRate items) := by
  have htbd := lem_totalBeforeDiscount_nonneg rates gstRate items hr hg hitems
  constructor
  · rw [grandTotal, lem_discount_clamp .FIXED v _ htbd]
    have hv0 : (0:ℚ) ≤ v := le_trans htbd hv
    rw [show specDiscountFormula .FIXED v (totalBeforeDiscount rates gstRate items) = v
        from rfl, max_eq_left hv0, min_eq_right hv]
    ring
  · intro dt
    exact (lem_grand_bounds dt v _ htbd).1

theorem C3_fixed_discount_clamps_to_zero_witness :
    grandTotal .FIXED 100 (totalBeforeDiscount cexRates 0 [cexItem]) = 0 :=
  (C3_fixed_discount_clamps_to_zero cexRates 0 [cexItem] 100
    (fun m => by cases m <;> norm_num [cexRates])
    (by norm_num)
    (fun it hit => by
      simp only [List.mem_singleton] at hit
      subst hit
      exact ⟨by norm_num [cexItem], by norm_num [cexItem],
        by norm_num [cexItem], by norm_num [cexItem]⟩)
    (by norm_num [totalBeforeDiscount, subTotal, gstAmount, calcItem,
      cexRates, cexItem])).1

inductive RatePeriod
  | MONTHLY
  | ANNUAL
deriving DecidableEq, Repr

inductive InterestType
  | SIMPLE
  | COMPOUND
deriving DecidableEq, Repr

structure Borrower where
  name : String
  phone : String
  address : String
  photoBase64 : Option String
  aadhaarNumber : Option String
  panNumber : Option String
  aadhaarPhotoBase64 : Option String
  panPhotoBase64 : Option String
deriving DecidableEq, Repr

structure MortgagedItem where
  id : String
  description : String
  weight : ℚ
  purity : String
  estimatedValue : ℚ
  photoBase64 : Option String
deriving DecidableEq, Repr

/-- A loan record; the loan date is kept as a JS epoch-millisecond value. -/
structure ByajLoan where
  id : String
  borrower : Borrower
  principalAmount : ℚ
  interestRate : ℚ
  interestRatePeriod : RatePeriod
  interestType : InterestType
  loanDateMs : ℚ
  mortgagedItems : List MortgagedItem
deriving DecidableEq, Repr

/-- The derived values LoanDetails shows: accrued interest, total payable
and elapsed whole days. -/
structure LoanEval where
  interest : ℚ
  totalPayable : ℚ
  daysPassed : ℤ
deriving DecidableEq, Repr

def msPerDay : ℚ := 1000 * 3600 * 24

/-- Interest accrual of Byajbook's LoanDetails (Byajbook.tsx lines 117-140):
for SIMPLE interest, fractional elapsed days are clamped at 0, converted to
mean months (30.4375 days) or mean years (365.25 days) by the rate period,
and fed into the simple-interest formula; for any other interest type the
computation returns zero interest. -/
def evalLoan (loan : ByajLoan) (nowMs : ℚ) : LoanEval :=
  if loan.interestType = .SIMPLE then
    let timeDiff := nowMs - loan.loanDateMs
    let days := max 0 (timeDiff / msPerDay)
    let interestAmount :=
      match loan.interestRatePeriod with
      | .MONTHLY => loan.principalAmount * loan.interestRate * (days / (30.4375 : ℚ)) / 100
      | .ANNUAL => loan.principalAmount * loan.interestRate * (days / (365.25 : ℚ)) / 100
    ⟨interestAmount, loan.principalAmount + interestAmount, ⌊days⌋⟩
  else
    ⟨0, loan.principalAmount, 0⟩

/-- Concrete SIMPLE MONTHLY loan: principal 10000 at 2% per month. -/
def testLoan : ByajLoan :=
  ⟨"L1", ⟨"Ram Kumar", "9999999999", "Main Street 1", none, none, none, none, none⟩,
    10000, 2, .MONTHLY, .SIMPLE, 0, [⟨"m1", "Gold Bangle", 10, "22K", 15000, none⟩]⟩

/-- C4: a SIMPLE loan evaluated at an instant accrues interest
principal × rate × periods / 100, where periods is the non-negative
fractional elapsed-day count divided by 30.4375 (MONTHLY) or 365.25
(ANNUAL); total payable adds the principal, days passed is the floor of
elapsed days; and the concrete 10000-at-2%-MONTHLY loan evaluated exactly
30.4375 days after its loan date yields interest 200 and total 10200. -/
theorem C4_simple_interest (loan : ByajLoan) (nowMs : ℚ)
    (h : loan.interestType = .SIMPLE) :
    (evalLoan loan nowMs).interest =
      loan.principalAmount * loan.interestRate *
        ((max 0 ((nowMs - loan.loanDateMs) / msPerDay)) /
          (match loan.interestRatePeriod with
           | .MONTHLY => (30.4375 : ℚ)
           | .ANNUAL => (365.25 : ℚ))) / 100
    ∧ (evalLoan loan nowMs).totalPayable =
        loan.principalAmount + (evalLoan loan nowMs).interest
    ∧ (evalLoan loan nowMs).daysPassed =
        ⌊max 0 ((nowMs - loan.loanDateMs) / msPerDay)⌋
    ∧ evalLoan testLoan (testLoan.loanDateMs + (30.4375 : ℚ) * msPerDay) =
        ⟨200, 10200, 30⟩ := by
  refine ⟨?_, ?_, ?_, ?_⟩
  · simp only [evalLoan, if_pos h]
    cases hp : loan.interestRatePeriod <;> simp [hp]
  · simp only [evalLoan, if_pos h]
  · simp only [evalLoan, if_pos h]
  · simp only [evalLoan, testLoan]
    norm_num [msPerDay]

theorem C4_simple_interest_witness :
    testLoan.interestType = .SIMPLE ∧
      evalLoan testLoan (testLoan.loanDateMs + (30.4375 : ℚ) * msPerDay) =
        ⟨200, 10200, 30⟩ :=
  ⟨rfl, (C4_simple_interest testLoan 0 rfl).2.2.2⟩

inductive ByajView
  | LIST
  | ADD_LOAN
  | DETAILS
deriving DecidableEq, Repr

/-- What the Byajbook component returns for a given view state: the add-loan
form, the details of a found loan, the loan list, or nothing at all (the
source's `return null`). -/
inductive ByajRender
  | addLoanForm
  | loanDetails (loan : ByajLoan)
  | loanList (loans : List ByajLoan)
  | renderNothing
deriving DecidableEq, Repr

/-- The view dispatch of the Byajbook component (Byajbook.tsx lines 29-59):
`selectedLoan` is the first loan whose id equals the selected id, and the
DETAILS arm renders null when that lookup comes back empty. -/
def byajbookRender (loans : List ByajLoan) (view : ByajView)
    (selectedLoanId : Option String) : ByajRender :=
  match view with
  | .ADD_LOAN => .addLoanForm
  | .DETAILS =>
      match loans.find? (fun l => selectedLoanId == some l.id) with
      | none => .renderNothing
      | some l => .loanDetails l
  | .LIST => .loanList loans

/-- C9: in the DETAILS state, when no loan in the list carries the selected
identifier, the Byajbook machine renders nothing instead of dereferencing a
missing loan. -/
theorem C9_missing_loan_renders_nothing (loans : List ByajLoan)
    (selectedLoanId : Option String)
    (h : ∀ l ∈ loans, selectedLoanId ≠ some l.id) :
    byajbookRender loans .DETAILS selectedLoanId = .renderNothing := by
  simp only [byajbookRender]
  have hfind : loans.find? (fun l => selectedLoanId == some l.id) = none := by
    rw [List.find?_eq_none]
    intro l hl
    simpa using h l hl
  rw [hfind]

theorem C9_missing_loan_renders_nothing_witness :
    byajbookRender [testLoan] .DETAILS (some "no-such-loan") = .renderNothing :=
  C9_missing_loan_renders_nothing [testLoan] (some "no-such-loan")
    (fun l hl => by
      simp only [List.mem_singleton] at hl
      subst hl
      simp [testLoan])

inductive TxType
  | CREDIT
  | DEBIT
deriving DecidableEq, Repr

structure KhataTransaction where
  id : String
  dateMs : ℚ
  partyId : String
  description : String
  type : TxType
  amount : ℚ
deriving DecidableEq, Repr

/-- The signed contribution of one transaction to a party balance:
`t.type === 'DEBIT' ? t.amount : -t.amount`. -/
def signedAmount (t : KhataTransaction) : ℚ :=
  if t.type = .DEBIT then t.amount else -t.amount

/-- Stable insertion keyed on the timestamp; an incoming transaction goes
before the first strictly later one, so equal timestamps keep their
original relative order, as the stable array sort of the source does. -/
def insertByDate (t : KhataTransaction) :
    List KhataTransaction → List KhataTransaction
  | [] => [t]
  | u :: us =>
      if t.dateMs ≤ u.dateMs then t :: u :: us else u :: insertByDate t us

/-- `[...transactions].sort((a, b) => a.date.getTime() - b.date.getTime())`. -/
def sortByDate : List KhataTransaction → List KhataTransaction
  | [] => []
  | t :: ts => insertByDate t (sortByDate ts)

/-- CustomerLedger's aggregation (Khatabook.tsx lines 202-210): sort
ascending by timestamp, scan left-to-right accumulating the running balance
and annotating every row with it, reverse the rows for newest-first display,
and keep the accumulator's end value as the final balance. -/
def customerLedger (txs : List KhataTransaction) :
    ℚ × List (KhataTransaction × ℚ) :=
  let result := (sortByDate txs).foldl
    (fun acc t => (acc.1 + signedAmount t, acc.2 ++ [(t, acc.1 + signedAmount t)]))
    ((0 : ℚ), ([] : List (KhataTransaction × ℚ)))
  (result.1, result.2.reverse)

/-- The running balances of a transaction sequence as the spec describes
them: left-to-right prefix sums of the signed amounts. -/
def runningBalances (b : ℚ) : List KhataTransaction → List ℚ
  | [] => []
  | t :: ts => (b + signedAmount t) :: runningBalances (b + signedAmount t) ts

theorem lem_insertByDate_perm (t : KhataTransaction)
    (l : List KhataTransaction) : (insertByDate t l).Perm (t :: l) := by
  induction l with
  | nil => exact List.Perm.refl _
  | cons u us ih =>
      simp only [insertByDate]
      split
      · exact List.Perm.refl _
      · exact (ih.cons u).trans (List.Perm.swap t u us)

theorem lem_sortByDate_perm (l : List KhataTransaction) :
    (sortByDate l).Perm l := by
  induction l with
  | nil => exact List.Perm.refl _
  | cons t ts ih =>
      exact (lem_insertByDate_perm t (sortByDate ts)).trans (ih.cons t)

theorem lem_ledger_foldl (l : List KhataTransaction) :
    ∀ (b : ℚ) (rows : List (KhataTransaction × ℚ)),
      l.foldl
          (fun acc t =>
            (acc.1 + signedAmount t, acc.2 ++ [(t, acc.1 + signedAmount t)]))
          (b, rows) =
        (b + (l.map signedAmount).sum, rows ++ l.zip (runningBalances b l)) := by
  induction l with
  | nil => intro b rows; simp [runningBalances]
  | cons t ts ih =>
      intro b rows
      simp only [List.foldl_cons, ih, List.map_cons, List.sum_cons,
        runningBalances, List.zip_cons_cons, List.append_assoc,
        List.singleton_append, add_assoc]

theorem lem_runningBalances_getLastD (l : List KhataTransaction) :
    ∀ b : ℚ, (runningBalances b l).getLastD b = b + (l.map signedAmount).sum := by
  induction l with
  | nil => intro b; simp [runningBalances]
  | cons t ts ih =>
      intro b
      simp only [runningBalances, List.getLastD_cons, ih, List.map_cons,
        List.sum_cons, add_assoc]

/-- First transaction of the concrete ledger scenario: DEBIT 100 at the
earlier timestamp. -/
def tx1 : KhataTransaction :=
  ⟨"t1", 1000, "9888877777", "gold purchase", .DEBIT, 100⟩

/-- Second transaction of the concrete ledger scenario: CREDIT 40 at the
later timestamp. -/
def tx2 : KhataTransaction :=
  ⟨"t2", 2000, "9888877777", "part payment", .CREDIT, 40⟩

/-- C5: the ledger aggregation annotates the timestamp-sorted transactions
with left-to-right running balances (+amount for DEBIT, -amount for CREDIT),
its final balance is the last running balance — equal to the order-free sum
of signed amounts — and the concrete scenario DEBIT 100 then CREDIT 40
produces running balances [100, 60] with net balance 60. -/
theorem C5_ledger_aggregation (txs : List KhataTransaction) :
    (customerLedger txs).1 = (txs.map signedAmount).sum
    ∧ (customerLedger txs).2 =
        ((sortByDate txs).zip (runningBalances 0 (sortByDate txs))).reverse
    ∧ (runningBalances 0 (sortByDate txs)).getLastD 0 = (customerLedger txs).1
    ∧ runningBalances 0 (sortByDate [tx1, tx2]) = [100, 60]
    ∧ (customerLedger [tx1, tx2]).1 = 60 := by
  have hfold := lem_ledger_foldl (sortByDate txs) 0 []
  have hsum : ((sortByDate txs).map signedAmount).sum = (txs.map signedAmount).sum :=
    ((lem_sortByDate_perm txs).map signedAmount).sum_eq
  refine ⟨?_, ?_, ?_, ?_, ?_⟩
  · simp only [customerLedger, hfold, zero_add, hsum]
  · simp only [customerLedger, hfold, List.nil_append]
  · rw [lem_runningBalances_getLastD, zero_add, hsum]
    simp only [customerLedger, hfold, zero_add, hsum]
  · have hs : sortByDate [tx1, tx2] = [tx1, tx2] := by
      norm_num [sortByDate, insertByDate, tx1, tx2]
    have h1 : signedAmount tx1 = 100 := by simp [signedAmount, tx1]
    have h2 : signedAmount tx2 = -40 := by simp [signedAmount, tx2]
    rw [hs]
    norm_num [runningBalances, h1, h2]
  · have hs : sortByDate [tx1, tx2] = [tx1, tx2] := by
      norm_num [sortByDate, insertByDate, tx1, tx2]
    have h1 : signedAmount tx1 = 100 := by simp [signedAmount, tx1]
    have h2 : signedAmount tx2 = -40 := by simp [signedAmount, tx2]
    simp only [customerLedger, hs, List.foldl_cons, List.foldl_nil, h1, h2]
    norm_num

/-- CustomerList's per-party balance map (Khatabook.tsx lines 94-102): one
pass over all transactions, each one adding `-amount` for CREDIT and
`+amount` otherwise to its party's entry; the JS Map with `|| 0` default is
a total function that is 0 everywhere initially. -/
def customerListBalances (txs : List KhataTransaction) : String → ℚ :=
  txs.foldl
    (fun balances t =>
      Function.update balances t.partyId
        (balances t.partyId + (if t.type = .CREDIT then -t.amount else t.amount)))
    (fun _ => 0)

/-- The Reports aggregator's balance map (Reports.tsx lines 21-26): the same
one-pass fold written with the opposite conditional,
`+amount` for DEBIT and `-amount` otherwise. -/
def reportsBalances (txs : List KhataTransaction) : String → ℚ :=
  txs.foldl
    (fun balances t =>
      Function.update balances t.partyId
        (balances t.partyId + (if t.type = .DEBIT then t.amount else -t.amount)))
    (fun _ => 0)

theorem lem_balance_fold (f : KhataTransaction → ℚ) (txs : List KhataTransaction) :
    ∀ (g : String → ℚ) (pid : String),
      (txs.foldl
          (fun balances t =>
            Function.update balances t.partyId (balances t.partyId + f t)) g) pid =
        g pid + ((txs.filter (fun t => t.partyId == pid)).map f).sum := by
  induction txs with
  | nil => intro g pid; simp
  | cons t ts ih =>
      intro g pid
      simp only [List.foldl_cons, ih]
      by_cases hp : t.partyId = pid
      · subst hp
        simp [Function.update_same, List.filter_cons, add_assoc]
      · have hbeq : (t.partyId == pid) = false := by
          simpa using hp
        simp [Function.update_noteq (Ne.symm hp), List.filter_cons, hbeq]

theorem lem_credit_style_eq_signed (t : KhataTransaction) :
    (if t.type = .CREDIT then -t.amount else t.amount) = signedAmount t := by
  cases h : t.type <;> simp [signedAmount, h]

theorem lem_debit_style_eq_signed (t : KhataTransaction) :
    (if t.type = .DEBIT then t.amount else -t.amount) = signedAmount t := by
  cases h : t.type <;> simp [signedAmount, h]

/-- C10: the customer-list balance map, the per-party ledger fold and the
reports aggregator compute the same number for every party: the sum of
+amount per DEBIT and -amount per CREDIT over that party's transactions;
the views can only disagree in display labels. -/
theorem C10_balance_views_agree (txs : List KhataTransaction) (pid : String) :
    customerListBalances txs pid =
        (customerLedger (txs.filter (fun t => t.partyId == pid))).1
    ∧ reportsBalances txs pid = customerListBalances txs pid := by
  have hlist : customerListBalances txs pid =
      ((txs.filter (fun t => t.partyId == pid)).map signedAmount).sum := by
    rw [customerListBalances]
    have := lem_balance_fold
      (fun t => if t.type = .CREDIT then -t.amount else t.amount) txs
      (fun _ => 0) pid
    rw [this, zero_add]
    congr 1
    exact List.map_congr_left (fun t _ => lem_credit_style_eq_signed t)
  have hreports : reportsBalances txs pid =
      ((txs.filter (fun t => t.partyId == pid)).map signedAmount).sum := by
    rw [reportsBalances]
    have := lem_balance_fold
      (fun t => if t.type = .DEBIT then t.amount else -t.amount) txs
      (fun _ => 0) pid
    rw [this, zero_add]
    exact congrArg List.sum
      (List.map_congr_left (fun t _ => lem_debit_style_eq_signed t))
  have hledger : (customerLedger (txs.filter (fun t => t.partyId == pid))).1 =
      ((txs.filter (fun t => t.partyId == pid)).map signedAmount).sum := by
    simp only [customerLedger,
      lem_ledger_foldl (sortByDate (txs.filter (fun t => t.partyId == pid))) 0 [],
      zero_add]
    exact ((lem_sortByDate_perm _).map signedAmount).sum_eq
  exact ⟨hlist.trans hledger.symm, hreports.trans hlist.symm⟩

/-- The raw inputs of the billing form; the weight and making-charge inputs
carry the result of parseFloat, with none for a non-numeric string (NaN). -/
structure BillingFormState where
  description : String
  metal : MetalType
  grossWeight : Option ℚ
  netWeight : Option ℚ
  makingChargeType : MakingChargeType
  makingChargeValue : Option ℚ
  applyGst : Bool
deriving DecidableEq, Repr

/-- BillingForm.handleSubmit: rejects with a validation message — leaving
the item list untouched — when the trimmed description is empty, any numeric
field failed to parse, a weight is non-positive, the making charge is
negative, or the net weight exceeds the gross weight; otherwise appends
exactly the new item. -/
def handleSubmit (form : BillingFormState) (items : List InvoiceItem)
    (newId : String) : Option String × List InvoiceItem :=
  if form.description.trim = "" ∨ form.grossWeight = none ∨
      form.netWeight = none ∨ form.makingChargeValue = none ∨
      form.grossWeight.getD 0 ≤ 0 ∨ form.netWeight.getD 0 ≤ 0 ∨
      form.makingChargeValue.getD 0 < 0 then
    (some "please_fill_valid_values", items)
  else if form.grossWeight.getD 0 < form.netWeight.getD 0 then
    (some "net_weight_error", items)
  else
    (none,
      items ++ [⟨newId, form.description, form.metal, form.grossWeight.getD 0,
        form.netWeight.getD 0, form.makingChargeType,
        form.makingChargeValue.getD 0, form.applyGst⟩])

/-- The claim's rejection condition, as one flat disjunction. -/
def RejectCond (form : BillingFormState) : Prop :=
  form.description.trim = "" ∨ form.grossWeight = none ∨
    form.netWeight = none ∨ form.makingChargeValue = none ∨
    form.grossWeight.getD 0 ≤ 0 ∨ form.netWeight.getD 0 ≤ 0 ∨
    form.makingChargeValue.getD 0 < 0 ∨
    form.grossWeight.getD 0 < form.netWeight.getD 0

/-- C6: line-item creation signals a validation error exactly under the
claimed rejection condition; on rejection the item list is unchanged (no
partial item); net weight above gross weight is rejected regardless of the
other fields; and acceptance appends exactly the submitted item. -/
theorem C6_line_item_validation (form : BillingFormState)
    (items : List InvoiceItem) (newId : String) :
    ((handleSubmit form items newId).1.isSome = true ↔ RejectCond form)
    ∧ ((handleSubmit form items newId).1.isSome = true →
        (handleSubmit form items newId).2 = items)
    ∧ (∀ gw nw, form.grossWeight = some gw → form.netWeight = some nw →
        gw < nw → (handleSubmit form items newId).1.isSome = true)
    ∧ ((handleSubmit form items newId).1 = none →
        (handleSubmit form items newId).2 =
          items ++ [⟨newId, form.description, form.metal,
            form.grossWeight.getD 0, form.netWeight.getD 0,
            form.makingChargeType, form.makingChargeValue.getD 0,
            form.applyGst⟩]) := by
  simp only [handleSubmit, RejectCond]
  split_ifs with h1 h2
  · refine ⟨?_, fun _ => rfl, fun gw nw _ _ _ => rfl, fun hc => by simp at hc⟩
    simp only [Option.isSome_some, true_iff]
    tauto
  · refine ⟨?_, fun _ => rfl, fun gw nw _ _ _ => rfl, fun hc => by simp at hc⟩
    simp only [Option.isSome_some, true_iff]
    tauto
  · refine ⟨?_, fun hc => by simp at hc, ?_, fun _ => rfl⟩
    · simp only [Option.isSome_none, Bool.false_eq_true, false_iff]
      tauto
    · intro gw nw hg hn hlt
      rw [hg, hn] at h2
      simp only [Option.getD_some] at h2
      exact absurd hlt h2

theorem C6_line_item_validation_witness :
    (handleSubmit ⟨"Gold Ring", .GOLD, some 1, some 2, .FLAT, some 0, true⟩
      [] "id1").1.isSome = true :=
  (C6_line_item_validation
    ⟨"Gold Ring", .GOLD, some 1, some 2, .FLAT, some 0, true⟩ [] "id1").2.2.1
    1 2 rfl rfl (by norm_num)

inductive PartyType
  | CUSTOMER
  | SUPPLIER
deriving DecidableEq, Repr

structure Party where
  id : String
  name : String
  phone : String
  type : PartyType
deriving DecidableEq, Repr

/-- An add-party request (the source's `Omit<Party, 'id'>`). -/
structure PartyInput where
  name : String
  phone : String
  type : PartyType
deriving DecidableEq, Repr

/-- App.handleAddParty (App.tsx lines 80-87): reject with an error when some
existing party has the same phone number, otherwise append a new party whose
id is that phone number. -/
def handleAddParty (parties : List Party) (input : PartyInput) :
    Option String × List Party :=
  if parties.any (fun p => p.phone == input.phone) then
    (some "A party with this phone number already exists.", parties)
  else
    (none, parties ++ [⟨input.phone, input.name, input.phone, input.type⟩])

/-- C7: when the request's phone number matches an existing party the party
set is left unchanged and a duplicate error is signalled; when it matches no
party, exactly one new party — with the phone number as its identifier — is
appended. -/
theorem C7_duplicate_party (parties : List Party) (input : PartyInput) :
    ((∃ p ∈ parties, p.phone = input.phone) →
      handleAddParty parties input =
        (some "A party with this phone number already exists.", parties))
    ∧ ((∀ p ∈ parties, p.phone ≠ input.phone) →
      handleAddParty parties input =
        (none, parties ++ [⟨input.phone, input.name, input.phone, input.type⟩])) := by
  constructor
  · intro hdup
    have hany : parties.any (fun p => p.phone == input.phone) = true := by
      rw [List.any_eq_true]
      obtain ⟨p, hp, he⟩ := hdup
      exact ⟨p, hp, by simpa using he⟩
    simp only [handleAddParty, hany, if_true]
  · intro hfresh
    have hany : parties.any (fun p => p.phone == input.phone) = false := by
      rw [List.any_eq_false]
      intro p hp
      simpa using hfresh p hp
    simp only [handleAddParty, hany, Bool.false_eq_true, if_false]

/-- A concrete existing party for the duplicate-rejection scenario. -/
def partyA : Party := ⟨"9111122222", "Shyam Traders", "9111122222", .CUSTOMER⟩

theorem C7_duplicate_party_witness :
    handleAddParty [partyA] ⟨"Shyam Again", "9111122222", .SUPPLIER⟩ =
      (some "A party with this phone number already exists.", [partyA]) :=
  (C7_duplicate_party [partyA] ⟨"Shyam Again", "9111122222", .SUPPLIER⟩).1
    ⟨partyA, by simp, rfl⟩

/-- The billing-session state held by App plus InvoicePreview's discount
inputs; the discount value is the raw input parse, with none for the empty
or non-numeric string. -/
structure BillingSessionState where
  items : List InvoiceItem
  customerName : String
  customerPhone : String
  gstRate : ℚ
  invoiceNumber : ℤ
  discountType : DiscountType
  discountValue : Option ℚ
deriving DecidableEq, Repr

/-- The combined clear operation: App.handleClearInvoice (App.tsx lines
60-64) empties the items, blanks the customer and increments the invoice
number, then InvoicePreview.handleClear (SettingsModal.tsx lines 195-199)
resets the discount input to the empty string and PERCENT mode. -/
def clearInvoice (s : BillingSessionState) : BillingSessionState :=
  { s with
      items := [],
      customerName := "",
      customerPhone := "",
      invoiceNumber := s.invoiceNumber + 1,
      discountType := .PERCENT,
      discountValue := none }

/-- C8: clearing a billing session empties the item list, blanks the
customer, bumps the invoice number by exactly one and resets the discount to
PERCENT with numeric value 0, while leaving the tax rate alone; clearing an
already-empty session changes nothing but the invoice number. -/
theorem C8_clear_invoice (s : BillingSessionState) :
    (clearInvoice s).items = []
    ∧ (clearInvoice s).customerName = ""
    ∧ (clearInvoice s).customerPhone = ""
    ∧ (clearInvoice s).invoiceNumber = s.invoiceNumber + 1
    ∧ (clearInvoice s).discountType = .PERCENT
    ∧ numericDiscountValue (clearInvoice s).discountValue = 0
    ∧ (clearInvoice s).gstRate = s.gstRate
    ∧ (s.items = [] → s.customerName = "" → s.customerPhone = "" →
        s.discountType = .PERCENT → s.discountValue = none →
        clearInvoice s = { s with invoiceNumber := s.invoiceNumber + 1 }) := by
  refine ⟨rfl, rfl, rfl, rfl, rfl, rfl, rfl, ?_⟩
  intro h1 h2 h3 h4 h5
  cases s
  simp_all [clearInvoice]

/-- An already-empty billing session with default discount. -/
def emptySession : BillingSessionState := ⟨[], "", "", 3, 7, .PERCENT, none⟩

theorem C8_clear_invoice_witness :
    clearInvoice emptySession =
      { emptySession with invoiceNumber := emptySession.invoiceNumber + 1 } :=
  (C8_clear_invoice emptySession).2.2.2.2.2.2.2 rfl rfl rfl rfl rfl
